import Mathlib

/-!
Verification of the RESP key-value server (`my_redis`): a shallow embedding
of the value model (`src/resp/mod.rs`), the serializer (`src/resp/serialize.rs`),
the deserializer (`src/resp/deserialize.rs`), the command layer (`src/cmd/mod.rs`)
and the storage backend (`src/backend/mod.rs`).

Modelling conventions:
* Rust `u8` buffers (`BytesMut`, `Vec<u8>`) are `List Nat` (each entry a byte value).
* Rust `String` payloads are their UTF-8 byte sequences (`List Nat`); the
  `std::str::from_utf8` check of the deserializer is modelled by an explicit
  UTF-8 validity automaton.
* Rust `i64` / `usize` are `Int` / `Nat` with the overflow bounds of
  `parse::<i64>` / `parse::<usize>` made explicit where the code parses text.
* `f64` (the `Double` wrapper) is kept opaquely as the decimal text that
  denotes it; IEEE 754 arithmetic and formatting are out of the embedding's scope.
* Functions taking `&mut BytesMut` become state-passing functions returning
  `(result, buffer afterwards)`, because the code mutates the buffer in place
  even on error paths and that behaviour is observable by callers.
-/

namespace Redis

/-- Comparison of naturals, used to model the derived `Ord` instances of Rust. -/
def cmpNat (a b : Nat) : Ordering :=
  if a < b then .lt else if b < a then .gt else .eq

/-- Comparison of integers (Rust `i64` derived `Ord`). -/
def cmpInt (a b : Int) : Ordering :=
  if a < b then .lt else if b < a then .gt else .eq

/-- Comparison of booleans (Rust `bool` `Ord`: `false < true`). -/
def cmpBool : Bool → Bool → Ordering
  | false, true => .lt
  | true, false => .gt
  | _, _ => .eq

/-- Lexicographic byte comparison: Rust `String` `Ord` compares UTF-8 bytes. -/
def cmpBytes : List Nat → List Nat → Ordering
  | [], [] => .eq
  | [], _ :: _ => .lt
  | _ :: _, [] => .gt
  | a :: xs, b :: ys =>
    match cmpNat a b with
    | .eq => cmpBytes xs ys
    | o => o

/-- UTF-8 bytes of an ASCII string literal (used only for ASCII text). -/
def strBytes (s : String) : List Nat := s.toList.map Char.toNat

/-- Digits of `n` in base 10, most significant first, as ASCII bytes;
`fuel` bounds the recursion and any `fuel > n` is exact. -/
def utoaCore : Nat → Nat → List Nat
  | 0, _ => []
  | fuel + 1, n => if n = 0 then [] else utoaCore fuel (n / 10) ++ [n % 10 + 48]

/-- ASCII decimal rendering of a natural (Rust `Display` for unsigned integers). -/
def utoa (n : Nat) : List Nat := if n = 0 then [48] else utoaCore (n + 1) n

/-- ASCII decimal rendering of an integer (Rust `Display` for `i64`). -/
def itoa (n : Int) : List Nat := if n < 0 then 45 :: utoa n.natAbs else utoa n.toNat

/-- Value of an all-digit ASCII byte string; `none` if empty or non-digit. -/
def parseDigits (s : List Nat) : Option Nat :=
  match s with
  | [] => none
  | _ =>
    if s.all (fun c => 48 ≤ c && c ≤ 57) then
      some (s.foldl (fun a c => a * 10 + (c - 48)) 0)
    else none

/-- Rust `str::parse::<usize>`: optional leading `+`, digits, value below `2^64`. -/
def parse_usize (s : List Nat) : Option Nat :=
  match s with
  | [] => none
  | c :: r =>
    if c = 43 then (parseDigits r).bind fun n => if n < 2 ^ 64 then some n else none
    else (parseDigits (c :: r)).bind fun n => if n < 2 ^ 64 then some n else none

/-- Rust `str::parse::<i64>`: optional sign, digits, value within `i64` range. -/
def parse_i64 (s : List Nat) : Option Int :=
  match s with
  | [] => none
  | c :: r =>
    if c = 43 then
      (parseDigits r).bind fun n => if n ≤ 2 ^ 63 - 1 then some ((n : Int)) else none
    else if c = 45 then
      (parseDigits r).bind fun n => if n ≤ 2 ^ 63 then some (-(n : Int)) else none
    else
      (parseDigits (c :: r)).bind fun n => if n ≤ 2 ^ 63 - 1 then some ((n : Int)) else none

/-- UTF-8 continuation byte test (`0x80..=0xBF`). -/
def contByte (c : Nat) : Bool := 128 ≤ c && c ≤ 191

/-- Continuation-byte count and admissible range of the first continuation
byte for a UTF-8 leading byte, `none` for an invalid leading byte. -/
def utf8Lead (c : Nat) : Option (Nat × Nat × Nat) :=
  if 194 ≤ c && c ≤ 223 then some (1, 128, 191)
  else if c = 224 then some (2, 160, 191)
  else if (225 ≤ c && c ≤ 236) || c = 238 || c = 239 then some (2, 128, 191)
  else if c = 237 then some (2, 128, 159)
  else if c = 240 then some (3, 144, 191)
  else if 241 ≤ c && c ≤ 243 then some (3, 128, 191)
  else if c = 244 then some (3, 128, 143)
  else none

/-- UTF-8 validity of a byte sequence, modelling `std::str::from_utf8`. -/
def validUtf8 : List Nat → Bool
  | [] => true
  | c :: rest =>
    if c ≤ 127 then validUtf8 rest
    else
      match utf8Lead c, rest with
      | some (1, lo, hi), c1 :: r => (lo ≤ c1 && c1 ≤ hi) && validUtf8 r
      | some (2, lo, hi), c1 :: c2 :: r =>
        (lo ≤ c1 && c1 ≤ hi) && contByte c2 && validUtf8 r
      | some (3, lo, hi), c1 :: c2 :: c3 :: r =>
        (lo ≤ c1 && c1 ≤ hi) && contByte c2 && contByte c3 && validUtf8 r
      | _, _ => false

/-- True when the byte string contains no CR (`\r`) byte. -/
def noCR (s : List Nat) : Bool := s.all (fun c => c != 13)

/-- The `Key` enum of `src/resp/mod.rs`: the restricted subset of RESP values
usable as a map key or set element.  Payloads are the wrapped structs'
fields: `BulkString` carries `value` and `is_null` (the two-field form used
throughout `deserialize.rs` and the `cmd` tests). -/
inductive Key where
  | simpleString (value : List Nat)
  | simpleError (value : List Nat)
  | integer (value : Int)
  | bulkString (value : List Nat) (is_null : Bool)
  | bulkError (value : List Nat)
  | null
  | boolean (value : Bool)
deriving DecidableEq

/-- Variant rank of a `Key`, following the declaration order of the Rust enum
(the derived `Ord` compares variants in that order first). -/
def keyRank : Key → Nat
  | .simpleString _ => 0
  | .simpleError _ => 1
  | .integer _ => 2
  | .bulkString _ _ => 3
  | .bulkError _ => 4
  | .null => 5
  | .boolean _ => 6

/-- The derived `Ord` on `Key`: by variant rank, then by the contained
fields in declaration order. -/
def keyCmp (a b : Key) : Ordering :=
  match cmpNat (keyRank a) (keyRank b) with
  | .lt => .lt
  | .gt => .gt
  | .eq =>
    match a, b with
    | .simpleString x, .simpleString y => cmpBytes x y
    | .simpleError x, .simpleError y => cmpBytes x y
    | .integer x, .integer y => cmpInt x y
    | .bulkString x nx, .bulkString y ny =>
      match cmpBytes x y with
      | .eq => cmpBool nx ny
      | o => o
    | .bulkError x, .bulkError y => cmpBytes x y
    | .null, .null => .eq
    | .boolean x, .boolean y => cmpBool x y
    | _, _ => .eq

/-- The `Resp` enum of `src/resp/mod.rs`, one case per wire type.  `Array`
carries `value` and `is_null` (the two-field form used by `deserialize.rs`);
`Map` is the `BTreeMap<Key, Resp>` as its sorted entry list; `Set` is the
`BTreeSet<Key>` as its sorted element list; `Double` keeps the decimal text
denoting the `f64` (IEEE semantics are out of scope). -/
inductive Resp where
  | simpleString (value : List Nat)
  | simpleError (value : List Nat)
  | integer (value : Int)
  | bulkString (value : List Nat) (is_null : Bool)
  | array (value : List Resp) (is_null : Bool)
  | null
  | boolean (value : Bool)
  | double (value : List Nat)
  | bulkError (value : List Nat)
  | map (value : List (Key × Resp))
  | set (value : List Key)

/-- The `From<Key> for Resp` conversion of `src/resp/mod.rs`. -/
def keyToResp : Key → Resp
  | .boolean v => .boolean v
  | .bulkString v n => .bulkString v n
  | .simpleString v => .simpleString v
  | .simpleError v => .simpleError v
  | .bulkError v => .bulkError v
  | .integer v => .integer v
  | .null => .null

/-- The `TryFrom<Resp> for Key` conversion of `src/resp/mod.rs`; `none`
models `Err(UnsupportedKey)`. -/
def tryIntoKey : Resp → Option Key
  | .boolean v => some (.boolean v)
  | .bulkString v n => some (.bulkString v n)
  | .simpleString v => some (.simpleString v)
  | .simpleError v => some (.simpleError v)
  | .bulkError v => some (.bulkError v)
  | .integer v => some (.integer v)
  | .null => some .null
  | _ => none

/-- Insertion into the `BTreeMap<Key, Resp>` entry list: keeps the list
sorted by `keyCmp`; on an equal key the stored key is kept and the value
replaced (the `BTreeMap::insert` behaviour). -/
def mapInsert : List (Key × Resp) → Key → Resp → List (Key × Resp)
  | [], k, v => [(k, v)]
  | (k', v') :: t, k, v =>
    match keyCmp k k' with
    | .lt => (k, v) :: (k', v') :: t
    | .eq => (k', v) :: t
    | .gt => (k', v') :: mapInsert t k v

/-- Insertion into the `BTreeSet<Key>` element list: sorted, and an element
already present is not re-inserted (`BTreeSet::insert`). -/
def setInsert : List Key → Key → List Key
  | [], k => [k]
  | k' :: t, k =>
    match keyCmp k k' with
    | .lt => k :: k' :: t
    | .eq => k' :: t
    | .gt => k' :: setInsert t k

/-- `Serialize for SimpleString`: `+{value}\r\n`. -/
def serializeSimpleString (s : List Nat) : List Nat := 43 :: (s ++ [13, 10])

/-- `Serialize for SimpleError`: `-{value}\r\n`. -/
def serializeSimpleError (s : List Nat) : List Nat := 45 :: (s ++ [13, 10])

/-- `Serialize for Integer`: `:{value}\r\n`. -/
def serializeInteger (n : Int) : List Nat := 58 :: (itoa n ++ [13, 10])

/-- `Serialize for BulkString`: `${len}\r\n{value}\r\n`.  Note the source
formats only `self.value` — the `is_null` state is not consulted, so a null
bulk string serializes like an empty one. -/
def serializeBulkString (v : List Nat) (_is_null : Bool) : List Nat :=
  36 :: (utoa v.length ++ [13, 10] ++ v ++ [13, 10])

/-- `Serialize for Null`: `_\r\n`. -/
def serializeNull : List Nat := [95, 13, 10]

/-- `Serialize for Boolean`: `#t\r\n` or `#f\r\n`. -/
def serializeBoolean (b : Bool) : List Nat :=
  if b then [35, 116, 13, 10] else [35, 102, 13, 10]

/-- `Serialize for Double`, shape only: `,{text}\r\n`.  The source renders
`self.value` in fixed or scientific notation depending on its magnitude;
since `f64` is modelled as its decimal text, the text is emitted as kept.
No theorem below depends on this case. -/
def serializeDouble (d : List Nat) : List Nat := 44 :: (d ++ [13, 10])

/-- `Serialize for BulkError`: `!{len}\r\n{value}\r\n`. -/
def serializeBulkError (v : List Nat) : List Nat :=
  33 :: (utoa v.length ++ [13, 10] ++ v ++ [13, 10])

/-- `Serialize for Key`: dispatch to the wrapped struct's serializer. -/
def serializeKey : Key → List Nat
  | .simpleString s => serializeSimpleString s
  | .simpleError s => serializeSimpleError s
  | .integer n => serializeInteger n
  | .bulkString v n => serializeBulkString v n
  | .null => serializeNull
  | .boolean b => serializeBoolean b
  | .bulkError v => serializeBulkError v

/-- Concatenated serializations of a list of keys (the `Set` iteration). -/
def serializeKeys : List Key → List Nat
  | [] => []
  | k :: t => serializeKey k ++ serializeKeys t

/-- `Serialize for Set` (the struct-level impl): `~{len}\r\n` then each
element in the stored (canonical) order. -/
def setSerialize (s : List Key) : List Nat :=
  126 :: (utoa s.length ++ [13, 10] ++ serializeKeys s)

mutual

/-- `Serialize for Resp` combined with the composite impls of
`src/resp/serialize.rs`.  The `Resp::Set` arm of the dispatch is commented
out in the source and falls into the catch-all `_ => Vec::new()`, so a
top-level `Set` value serializes to the empty byte string. -/
def Resp.serialize : Resp → List Nat
  | .simpleString s => serializeSimpleString s
  | .simpleError s => serializeSimpleError s
  | .integer n => serializeInteger n
  | .bulkString v n => serializeBulkString v n
  | .array l _ => 42 :: (utoa l.length ++ [13, 10] ++ serializeList l)
  | .null => serializeNull
  | .boolean b => serializeBoolean b
  | .double d => serializeDouble d
  | .bulkError v => serializeBulkError v
  | .map m => 37 :: (utoa m.length ++ [13, 10] ++ serializePairs m)
  | .set _ => []

/-- Concatenated serializations of array elements (`Serialize for Array`). -/
def serializeList : List Resp → List Nat
  | [] => []
  | x :: xs => Resp.serialize x ++ serializeList xs

/-- Concatenated serializations of map entries, key then value
(`Serialize for Map`). -/
def serializePairs : List (Key × Resp) → List Nat
  | [] => []
  | (k, v) :: xs => serializeKey k ++ Resp.serialize v ++ serializePairs xs

end

/-- The `RespDeserializeError` enum of `src/resp/deserialize.rs` (the
`Utf8Error` payload is dropped). -/
inductive RespDeserializeError where
  | unknownRespType
  | notComplete
  | wrongFormat
  | utf8Error
deriving DecidableEq

/-- The `find_crlf` helper: locate the first `\r`, require `\n` after it,
split off the bytes before it and consume through the `\r\n`.  On error the
buffer is returned unchanged (the source errors before mutating). -/
def find_crlf (buf : List Nat) : Except RespDeserializeError (List Nat) × List Nat :=
  let i := buf.findIdx (fun c => c == 13)
  if i = buf.length then (.error .notComplete, buf)
  else if i + 1 = buf.length then (.error .notComplete, buf)
  else if buf.getD (i + 1) 0 ≠ 10 then (.error .wrongFormat, buf)
  else (.ok (buf.take i), buf.drop (i + 2))

/-- `deserialize_simple_string` (after the tag byte): one CRLF line, UTF-8
checked; the payload bytes are returned. -/
def deserialize_simple_string (buf : List Nat) :
    Except RespDeserializeError (List Nat) × List Nat :=
  match find_crlf buf with
  | (.error e, rest) => (.error e, rest)
  | (.ok bytes, rest) =>
    if validUtf8 bytes then (.ok bytes, rest) else (.error .utf8Error, rest)

/-- `deserialize_simple_error`: identical shape to `deserialize_simple_string`. -/
def deserialize_simple_error (buf : List Nat) :
    Except RespDeserializeError (List Nat) × List Nat :=
  match find_crlf buf with
  | (.error e, rest) => (.error e, rest)
  | (.ok bytes, rest) =>
    if validUtf8 bytes then (.ok bytes, rest) else (.error .utf8Error, rest)

/-- `deserialize_integer`: one CRLF line parsed with `parse::<i64>`. -/
def deserialize_integer (buf : List Nat) :
    Except RespDeserializeError Int × List Nat :=
  match find_crlf buf with
  | (.error e, rest) => (.error e, rest)
  | (.ok bytes, rest) =>
    if validUtf8 bytes then
      match parse_i64 bytes with
      | some n => (.ok n, rest)
      | none => (.error .wrongFormat, rest)
    else (.error .utf8Error, rest)

/-- `deserialize_bulk_string`: length line parsed as `i64`; `-1` yields the
null bulk string `BulkString::new("", true)`; other negatives are malformed;
then the body of exactly `len` bytes, a CRLF, and a UTF-8 check.  The buffer
is consumed incrementally exactly as the source's `split_to`/`advance` do,
including on error paths. -/
def deserialize_bulk_string (buf : List Nat) :
    Except RespDeserializeError (List Nat × Bool) × List Nat :=
  match find_crlf buf with
  | (.error e, rest) => (.error e, rest)
  | (.ok line, rest) =>
    if validUtf8 line then
      match parse_i64 line with
      | none => (.error .wrongFormat, rest)
      | some len =>
        if len = -1 then (.ok ([], true), rest)
        else if len < 0 then (.error .wrongFormat, rest)
        else if (rest.length : Int) < len + 2 then (.error .notComplete, rest)
        else
          let res := rest.take len.toNat
          let rest2 := rest.drop len.toNat
          if rest2.getD 0 0 ≠ 13 ∨ rest2.getD 1 0 ≠ 10 then (.error .wrongFormat, rest2)
          else if validUtf8 res then (.ok (res, false), rest2.drop 2)
          else (.error .utf8Error, rest2.drop 2)
    else (.error .utf8Error, rest)

/-- `deserialize_null`: exactly `\r\n` next. -/
def deserialize_null (buf : List Nat) :
    Except RespDeserializeError Unit × List Nat :=
  if buf.length < 2 then (.error .notComplete, buf)
  else if buf.getD 0 0 ≠ 13 ∨ buf.getD 1 0 ≠ 10 then (.error .wrongFormat, buf)
  else (.ok (), buf.drop 2)

/-- `deserialize_boolean`: a one-byte CRLF line, `t` or `f`. -/
def deserialize_boolean (buf : List Nat) :
    Except RespDeserializeError Bool × List Nat :=
  match find_crlf buf with
  | (.error e, rest) => (.error e, rest)
  | (.ok bytes, rest) =>
    if bytes.length ≠ 1 then (.error .wrongFormat, rest)
    else if bytes.getD 0 0 = 116 then (.ok true, rest)
    else if bytes.getD 0 0 = 102 then (.ok false, rest)
    else (.error .wrongFormat, rest)

/-- Modelled grammar of Rust `str::parse::<f64>`: optional sign, then
`inf`/`infinity`/`nan` (case-insensitive) or a decimal number with optional
fraction and exponent.  Only the accept/reject shape is modelled; the
numeric value is kept as text. -/
def parseF64Ok (s : List Nat) : Bool :=
  let lower := s.map (fun c => if 65 ≤ c && c ≤ 90 then c + 32 else c)
  let body := match lower with
    | 43 :: r => r
    | 45 :: r => r
    | r => r
  let isDigit := fun c => decide (48 ≤ c) && decide (c ≤ 57)
  if body = strBytes ("inf") || body = strBytes ("infinity") || body = strBytes ("nan") then
    true
  else
    let mant := body.takeWhile (fun c => isDigit c || c == 46)
    let expPart := body.drop mant.length
    let intPart := mant.takeWhile isDigit
    let fracTail := mant.drop intPart.length
    let mantOk :=
      match fracTail with
      | [] => !intPart.isEmpty
      | 46 :: fr => (!intPart.isEmpty || !fr.isEmpty) && fr.all isDigit
      | _ => false
    let expOk :=
      match expPart with
      | [] => true
      | 101 :: r =>
        let rb := match r with
          | 43 :: r2 => r2
          | 45 :: r2 => r2
          | r2 => r2
        !rb.isEmpty && rb.all isDigit
      | _ => false
    mantOk && expOk && !mant.isEmpty

/-- `deserialize_double`: one CRLF line, UTF-8 checked, parsed as `f64`
(grammar only; the text is the retained payload). -/
def deserialize_double (buf : List Nat) :
    Except RespDeserializeError (List Nat) × List Nat :=
  match find_crlf buf with
  | (.error e, rest) => (.error e, rest)
  | (.ok bytes, rest) =>
    if validUtf8 bytes then
      if parseF64Ok bytes then (.ok bytes, rest) else (.error .wrongFormat, rest)
    else (.error .utf8Error, rest)

/-- `deserialize_bulk_error`: length line parsed as `usize` (no null form),
then the body, CRLF and UTF-8 check, mirroring `deserialize_bulk_string`. -/
def deserialize_bulk_error (buf : List Nat) :
    Except RespDeserializeError (List Nat) × List Nat :=
  match find_crlf buf with
  | (.error e, rest) => (.error e, rest)
  | (.ok line, rest) =>
    if validUtf8 line then
      match parse_usize line with
      | none => (.error .wrongFormat, rest)
      | some len =>
        if rest.length < len + 2 then (.error .notComplete, rest)
        else
          let res := rest.take len
          let rest2 := rest.drop len
          if rest2.getD 0 0 ≠ 13 ∨ rest2.getD 1 0 ≠ 10 then (.error .wrongFormat, rest2)
          else if validUtf8 res then (.ok res, rest2.drop 2)
          else (.error .utf8Error, rest2.drop 2)
    else (.error .utf8Error, rest)

/-- The element loop of `deserialize_array`: parse `n` values with `p`,
aborting at the first error with the buffer as the failing parse left it. -/
def loopParse (p : List Nat → Except RespDeserializeError Resp × List Nat) :
    Nat → List Nat → Except RespDeserializeError (List Resp) × List Nat
  | 0, buf => (.ok [], buf)
  | n + 1, buf =>
    match p buf with
    | (.error e, rest) => (.error e, rest)
    | (.ok v, rest) =>
      match loopParse p n rest with
      | (.error e, rest2) => (.error e, rest2)
      | (.ok vs, rest2) => (.ok (v :: vs), rest2)

/-- The entry loop of `deserialize_map`: parse a key value (which must
convert to `Key`, else `WrongFormat`), then a value, insert, repeat. -/
def mapLoop (p : List Nat → Except RespDeserializeError Resp × List Nat) :
    Nat → List (Key × Resp) → List Nat →
    Except RespDeserializeError (List (Key × Resp)) × List Nat
  | 0, acc, buf => (.ok acc, buf)
  | n + 1, acc, buf =>
    match p buf with
    | (.error e, rest) => (.error e, rest)
    | (.ok kv, rest) =>
      match tryIntoKey kv with
      | none => (.error .wrongFormat, rest)
      | some k =>
        match p rest with
        | (.error e, rest2) => (.error e, rest2)
        | (.ok v, rest2) => mapLoop p n (mapInsert acc k v) rest2

/-- The element loop of `deserialize_set`: parse a value, convert to `Key`
(else `WrongFormat`), insert, repeat. -/
def setLoop (p : List Nat → Except RespDeserializeError Resp × List Nat) :
    Nat → List Key → List Nat →
    Except RespDeserializeError (List Key) × List Nat
  | 0, acc, buf => (.ok acc, buf)
  | n + 1, acc, buf =>
    match p buf with
    | (.error e, rest) => (.error e, rest)
    | (.ok v, rest) =>
      match tryIntoKey v with
      | none => (.error .wrongFormat, rest)
      | some k => setLoop p n (setInsert acc k) rest

/-- The `_try_from` recursive parser of `src/resp/deserialize.rs`: fewer
than 3 buffered bytes is `NotComplete`; otherwise dispatch on the tag byte
(consumed by `advance(1)`) to the per-type deserializer; an unknown tag is
`UnknownRespType` with the buffer untouched.  The `fuel` argument only makes
the recursion structural: every recursive call consumes at least three bytes
before recursing, so `fuel = buf.length` (as used by `tryFromBuf`) always
suffices, and at fuel 0 the buffer is empty, where returning `NotComplete`
coincides with the length check. -/
def tryFromF : Nat → List Nat → Except RespDeserializeError Resp × List Nat
  | 0, buf => (.error .notComplete, buf)
  | fuel + 1, buf =>
    if buf.length < 3 then (.error .notComplete, buf)
    else
      match buf with
      | [] => (.error .notComplete, buf)
      | b :: t =>
        if b = 43 then
          match deserialize_simple_string t with
          | (.ok s, rest) => (.ok (.simpleString s), rest)
          | (.error e, rest) => (.error e, rest)
        else if b = 45 then
          match deserialize_simple_error t with
          | (.ok s, rest) => (.ok (.simpleError s), rest)
          | (.error e, rest) => (.error e, rest)
        else if b = 37 then
          match find_crlf t with
          | (.error e, rest) => (.error e, rest)
          | (.ok line, rest) =>
            if validUtf8 line then
              match parse_usize line with
              | none => (.error .wrongFormat, rest)
              | some len =>
                match mapLoop (tryFromF fuel) len [] rest with
                | (.ok m, rest2) => (.ok (.map m), rest2)
                | (.error e, rest2) => (.error e, rest2)
            else (.error .utf8Error, rest)
        else if b = 58 then
          match deserialize_integer t with
          | (.ok n, rest) => (.ok (.integer n), rest)
          | (.error e, rest) => (.error e, rest)
        else if b = 36 then
          match deserialize_bulk_string t with
          | (.ok (v, n), rest) => (.ok (.bulkString v n), rest)
          | (.error e, rest) => (.error e, rest)
        else if b = 95 then
          match deserialize_null t with
          | (.ok _, rest) => (.ok .null, rest)
          | (.error e, rest) => (.error e, rest)
        else if b = 35 then
          match deserialize_boolean t with
          | (.ok bv, rest) => (.ok (.boolean bv), rest)
          | (.error e, rest) => (.error e, rest)
        else if b = 44 then
          match deserialize_double t with
          | (.ok d, rest) => (.ok (.double d), rest)
          | (.error e, rest) => (.error e, rest)
        else if b = 33 then
          match deserialize_bulk_error t with
          | (.ok v, rest) => (.ok (.bulkError v), rest)
          | (.error e, rest) => (.error e, rest)
        else if b = 42 then
          match find_crlf t with
          | (.error e, rest) => (.error e, rest)
          | (.ok line, rest) =>
            if validUtf8 line then
              match parse_i64 line with
              | none => (.error .wrongFormat, rest)
              | some len =>
                if len = -1 then (.ok (.array [] true), rest)
                else if len < 0 then (.error .wrongFormat, rest)
                else
                  match loopParse (tryFromF fuel) len.toNat rest with
                  | (.ok l, rest2) => (.ok (.array l false), rest2)
                  | (.error e, rest2) => (.error e, rest2)
            else (.error .utf8Error, rest)
        else if b = 126 then
          match find_crlf t with
          | (.error e, rest) => (.error e, rest)
          | (.ok line, rest) =>
            if validUtf8 line then
              match parse_usize line with
              | none => (.error .wrongFormat, rest)
              | some len =>
                match setLoop (tryFromF fuel) len [] rest with
                | (.ok sv, rest2) => (.ok (.set sv), rest2)
                | (.error e, rest2) => (.error e, rest2)
            else (.error .utf8Error, rest)
        else (.error .unknownRespType, buf)

/-- `_try_from` on a buffer, with the always-sufficient fuel. -/
def tryFromBuf (buf : List Nat) : Except RespDeserializeError Resp × List Nat :=
  tryFromF buf.length buf

/-- The `TryFrom<&mut BytesMut> for Resp` implementation: one `_try_from`,
then the parse succeeds only if the buffer was fully consumed; leftover
bytes are `WrongFormat`. -/
def Resp.tryFrom (buf : List Nat) : Except RespDeserializeError Resp × List Nat :=
  match tryFromBuf buf with
  | (.error e, rest) => (.error e, rest)
  | (.ok v, rest) => if rest.isEmpty then (.ok v, rest) else (.error .wrongFormat, rest)

/-- The `CommandError` enum of `src/cmd/mod.rs`. -/
inductive CommandError where
  | unsupportedCommand (name : List Nat)
  | wrongNumberOfArguments (expected actual : Nat)
  | wrongFormat
  | unsupportedKey
deriving DecidableEq

/-- The `Command` enum of `src/cmd/mod.rs`, with the `Get`/`Set`/`Echo`
structs flattened into the constructors. -/
inductive Command where
  | get (key : Key)
  | set (key : Key) (value : Resp)
  | echo (msg : Resp)
  | cmd

/-- ASCII upper-casing of a byte string, modelling `str::to_uppercase` on
the ASCII command names the conversion compares against. -/
def asciiUppercase (s : List Nat) : List Nat :=
  s.map (fun c => if 97 ≤ c && c ≤ 122 then c - 32 else c)

/-- The `TryFrom<Resp> for Command` conversion: the value must be an array,
its first element a bulk string matched case-insensitively against the
command names in the source's order (GET, SET, COMMAND, ECHO); GET/ECHO
check for exactly one following argument and SET for exactly two (a
mismatch reports the expected and the actual count); GET/SET keys must
convert to `Key` (else `UnsupportedKey`); COMMAND performs no arity check. -/
def Command.tryFrom : Resp → Except CommandError Command
  | .array l _ =>
    match l with
    | [] => .error .wrongFormat
    | c :: args =>
      match c with
      | .bulkString s _ =>
        let name := asciiUppercase s
        if name = strBytes ("GET") then
          match args with
          | [key] =>
            match tryIntoKey key with
            | some k => .ok (.get k)
            | none => .error .unsupportedKey
          | _ => .error (.wrongNumberOfArguments 1 args.length)
        else if name = strBytes ("SET") then
          match args with
          | [key, value] =>
            match tryIntoKey key with
            | some k => .ok (.set k value)
            | none => .error .unsupportedKey
          | _ => .error (.wrongNumberOfArguments 2 args.length)
        else if name = strBytes ("COMMAND") then .ok .cmd
        else if name = strBytes ("ECHO") then
          match args with
          | [msg] => .ok (.echo msg)
          | _ => .error (.wrongNumberOfArguments 1 args.length)
        else .error (.unsupportedCommand name)
      | _ => .error .wrongFormat
  | _ => .error .wrongFormat

/-- The `Storage` backend of `src/backend/mod.rs`: the `DashMap<Key, Resp>`
as a finite mapping. -/
def Storage : Type := Key → Option Resp

/-- `Storage::get`: lookup (the source clones the stored value). -/
def Storage.get (st : Storage) (k : Key) : Option Resp := st k

/-- `Storage::set`: unconditional insert (`DashMap::insert`). -/
def Storage.set (st : Storage) (k : Key) (v : Resp) : Storage :=
  fun q => if q = k then some v else st q

/-- `CommandExecutor for Storage`: `Get` returns the lookup, `Set` inserts
and returns nothing, every other command returns nothing; the storage state
after the call is the second component. -/
def Storage.execute (st : Storage) : Command → Option Resp × Storage
  | .get k => (Storage.get st k, st)
  | .set k v => (none, Storage.set st k v)
  | _ => (none, st)

/-- `Command::execute` against the storage executor: `Get` replies with the
stored value or `Null` on a miss; `Set` inserts and replies
`SimpleString("OK")`; `Echo` replies with its message without touching the
executor; `Cmd` replies `SimpleString("OK")`. -/
def Command.execute (c : Command) (st : Storage) : Resp × Storage :=
  match c with
  | .get k =>
    let r := Storage.execute st (.get k)
    (match r.1 with
     | some v => v
     | none => Resp.null, r.2)
  | .set k v =>
    let r := Storage.execute st (.set k v)
    (Resp.simpleString (strBytes ("OK")), r.2)
  | .echo m => (m, st)
  | .cmd => (Resp.simpleString (strBytes ("OK")), st)

/-- Well-formedness of a `Key` as constructible by the running program:
the byte payloads are valid UTF-8 (they come from Rust `String`s), simple
strings and errors contain no CR (no RESP escape exists for it), integers
fit in `i64`, bulk payload lengths are representable (`i64` for bulk
strings, `usize` for bulk errors), and no component is in the null state
(the serializer does not emit `$-1`, see `c4_null_not_roundtripped`). -/
def wellFormedKey : Key → Bool
  | .simpleString s => noCR s && validUtf8 s
  | .simpleError s => noCR s && validUtf8 s
  | .integer n => decide (-(2 ^ 63) ≤ n) && decide (n ≤ 2 ^ 63 - 1)
  | .bulkString v n => !n && validUtf8 v && decide (v.length < 2 ^ 63)
  | .bulkError v => validUtf8 v && decide (v.length < 2 ^ 64)
  | .null => true
  | .boolean _ => true

/-- Strict ascent of a map's entry list under the canonical key order:
every key is `keyCmp`-below all later keys (the `BTreeMap` iteration
invariant). -/
def keysStrictSorted : List (Key × Resp) → Bool
  | [] => true
  | a :: t => t.all (fun p => keyCmp a.1 p.1 == .lt) && keysStrictSorted t

mutual

/-- Well-formedness of a `Resp` for the round-trip theorem: the value has
no `Set` and no `Double` component, no null-state `BulkString`/`Array`,
simple strings and errors are CR-free, strings are valid UTF-8, integers
fit in `i64`, lengths are representable, and map entries are strictly
ascending in the canonical key order with well-formed keys and values. -/
def wellFormed : Resp → Bool
  | .simpleString s => noCR s && validUtf8 s
  | .simpleError s => noCR s && validUtf8 s
  | .integer n => decide (-(2 ^ 63) ≤ n) && decide (n ≤ 2 ^ 63 - 1)
  | .bulkString v n => !n && validUtf8 v && decide (v.length < 2 ^ 63)
  | .array l n => !n && decide (l.length ≤ 2 ^ 63 - 1) && wellFormedList l
  | .null => true
  | .boolean _ => true
  | .double _ => false
  | .bulkError v => validUtf8 v && decide (v.length < 2 ^ 64)
  | .map m => decide (m.length < 2 ^ 64) && keysStrictSorted m && wellFormedPairs m
  | .set _ => false

/-- Well-formedness of every element of an array. -/
def wellFormedList : List Resp → Bool
  | [] => true
  | x :: xs => wellFormed x && wellFormedList xs

/-- Well-formedness of every entry of a map. -/
def wellFormedPairs : List (Key × Resp) → Bool
  | [] => true
  | (k, v) :: xs => wellFormedKey k && wellFormed v && wellFormedPairs xs

end

theorem utoaCore_all_digits (fuel : Nat) :
    ∀ n, (utoaCore fuel n).all (fun c => 48 ≤ c && c ≤ 57) = true := by
  induction fuel with
  | zero => intro n; rfl
  | succ f ih =>
    intro n
    unfold utoaCore
    by_cases h : n = 0
    · simp [h]
    · have hm : n % 10 < 10 := Nat.mod_lt _ (by norm_num)
      simp only [h, if_false, List.all_append, ih (n / 10), Bool.true_and]
      simp
      omega

theorem utoa_all_digits (n : Nat) :
    (utoa n).all (fun c => 48 ≤ c && c ≤ 57) = true := by
  unfold utoa
  by_cases h : n = 0
  · simp [h]
  · simp [h, utoaCore_all_digits]

theorem utoa_ne_nil (n : Nat) : utoa n ≠ [] := by
  unfold utoa
  by_cases h : n = 0
  · simp [h]
  · simp only [h, if_false]
    unfold utoaCore
    simp [h]

theorem utoaCore_foldl (fuel : Nat) :
    ∀ n a, n < fuel →
      (utoaCore fuel n).foldl (fun acc c => acc * 10 + (c - 48)) a
        = a * 10 ^ (utoaCore fuel n).length + n := by
  induction fuel with
  | zero => intro n a h; omega
  | succ f ih =>
    intro n a h
    unfold utoaCore
    by_cases h0 : n = 0
    · simp [h0]
    · have hdiv : n / 10 < f := by
        have h1 : n / 10 < n := Nat.div_lt_self (by omega) (by norm_num)
        omega
      simp only [h0, if_false, List.foldl_append, List.length_append, List.foldl_cons,
        List.foldl_nil, List.length_cons, List.length_nil, ih (n / 10) a hdiv]
      have hmod : n % 10 + 48 - 48 = n % 10 := by omega
      rw [hmod]
      have heq : (a * 10 ^ (utoaCore f (n / 10)).length + n / 10) * 10 + n % 10
          = a * (10 ^ (utoaCore f (n / 10)).length * 10) + (n / 10 * 10 + n % 10) := by ring
      have hdm : n / 10 * 10 + n % 10 = n := by omega
      rw [heq, hdm, pow_succ]

theorem parseDigits_utoa (n : Nat) : parseDigits (utoa n) = some n := by
  obtain ⟨c, r, hcr⟩ : ∃ c r, utoa n = c :: r := by
    rcases h : utoa n with _ | ⟨c, r⟩
    · exact absurd h (utoa_ne_nil n)
    · exact ⟨c, r, rfl⟩
  have hall := utoa_all_digits n
  unfold parseDigits
  rw [hcr] at hall ⊢
  simp only [hall, if_true]
  rw [← hcr]
  unfold utoa
  by_cases h0 : n = 0
  · simp [h0]
  · simp only [h0, if_false]
    rw [utoaCore_foldl (n + 1) n 0 (by omega)]
    simp

theorem utoa_head_digit (n : Nat) :
    ∃ c r, utoa n = c :: r ∧ 48 ≤ c ∧ c ≤ 57 := by
  obtain ⟨c, r, hcr⟩ : ∃ c r, utoa n = c :: r := by
    rcases h : utoa n with _ | ⟨c, r⟩
    · exact absurd h (utoa_ne_nil n)
    · exact ⟨c, r, rfl⟩
  have hall := utoa_all_digits n
  rw [hcr] at hall
  simp only [List.all_cons, Bool.and_eq_true, decide_eq_true_eq] at hall
  refine ⟨c, r, hcr, ?_, ?_⟩ <;> simp_all

theorem parse_i64_utoa (n : Nat) (h : n ≤ 2 ^ 63 - 1) :
    parse_i64 (utoa n) = some ((n : Int)) := by
  obtain ⟨c, r, hcr, hc1, hc2⟩ := utoa_head_digit n
  unfold parse_i64
  rw [hcr]
  have h43 : ¬ c = 43 := by omega
  have h45 : ¬ c = 45 := by omega
  simp only [h43, h45, if_false, ← hcr, parseDigits_utoa]
  simp only [Option.some_bind]
  rw [if_pos (by omega)]

theorem parse_usize_utoa (n : Nat) (h : n < 2 ^ 64) :
    parse_usize (utoa n) = some n := by
  obtain ⟨c, r, hcr, hc1, hc2⟩ := utoa_head_digit n
  unfold parse_usize
  rw [hcr]
  have h43 : ¬ c = 43 := by omega
  simp only [h43, if_false, ← hcr, parseDigits_utoa]
  simp only [Option.some_bind]
  rw [if_pos (by omega)]

theorem parse_i64_itoa (n : Int) (h1 : -(2 ^ 63) ≤ n) (h2 : n ≤ 2 ^ 63 - 1) :
    parse_i64 (itoa n) = some n := by
  unfold itoa
  by_cases hn : n < 0
  · simp only [hn, if_true]
    unfold parse_i64
    have hb : n.natAbs ≤ 2 ^ 63 := by omega
    simp only [show ¬ (45 = 43) from by decide, if_false, if_pos rfl, parseDigits_utoa,
      Option.some_bind, hb, if_true]
    congr 1
    omega
  · simp only [hn, if_false]
    rw [parse_i64_utoa n.toNat (by omega)]
    congr 1
    omega

theorem noCR_utoa (n : Nat) : noCR (utoa n) = true := by
  have hall := utoa_all_digits n
  unfold noCR
  rw [List.all_eq_true] at hall ⊢
  intro c hc
  have := hall c hc
  simp only [Bool.and_eq_true, decide_eq_true_eq] at this
  simp only [bne_iff_ne, ne_eq]
  omega

theorem noCR_itoa (n : Int) : noCR (itoa n) = true := by
  unfold itoa
  by_cases hn : n < 0
  · simp only [hn, if_true, noCR, List.all_cons]
    have := noCR_utoa n.natAbs
    unfold noCR at this
    simp [this]
  · simp [hn, noCR_utoa]

set_option maxHeartbeats 1000000 in
theorem validUtf8_cons_low (c : Nat) (t : List Nat) (hc : c ≤ 127) :
    validUtf8 (c :: t) = validUtf8 t := by
  rw [validUtf8.eq_def]
  exact if_pos hc

theorem validUtf8_ascii (s : List Nat) (h : ∀ c ∈ s, c ≤ 127) : validUtf8 s = true := by
  induction s with
  | nil => rfl
  | cons c t ih =>
    have hc : c ≤ 127 := h c (by simp)
    rw [validUtf8_cons_low c t hc]
    exact ih (fun x hx => h x (by simp [hx]))

theorem validUtf8_utoa (n : Nat) : validUtf8 (utoa n) = true := by
  apply validUtf8_ascii
  intro c hc
  have hall := utoa_all_digits n
  rw [List.all_eq_true] at hall
  have := hall c hc
  simp only [Bool.and_eq_true, decide_eq_true_eq] at this
  omega

theorem validUtf8_itoa (n : Int) : validUtf8 (itoa n) = true := by
  apply validUtf8_ascii
  intro c hc
  unfold itoa at hc
  by_cases hn : n < 0
  · simp only [hn, if_true, List.mem_cons] at hc
    rcases hc with h | h
    · omega
    · have hall := utoa_all_digits n.natAbs
      rw [List.all_eq_true] at hall
      have := hall c h
      simp only [Bool.and_eq_true, decide_eq_true_eq] at this
      omega
  · simp only [hn, if_false] at hc
    have hall := utoa_all_digits n.toNat
    rw [List.all_eq_true] at hall
    have := hall c hc
    simp only [Bool.and_eq_true, decide_eq_true_eq] at this
    omega

theorem findIdx_cr (s rest : List Nat) (h : noCR s = true) :
    (s ++ 13 :: rest).findIdx (fun c => c == 13) = s.length := by
  induction s with
  | nil => simp [List.findIdx_cons]
  | cons a t ih =>
    unfold noCR at h
    simp only [List.all_cons, Bool.and_eq_true, bne_iff_ne, ne_eq] at h
    simp only [List.cons_append, List.findIdx_cons, List.length_cons]
    have ha : (a == 13) = false := by simp [h.1]
    rw [ha]
    simp only [cond_false]
    rw [ih h.2]

theorem getD_append_len (s u : List Nat) (k : Nat) :
    (s ++ u).getD (s.length + k) 0 = u.getD k 0 := by
  induction s with
  | nil => simp
  | cons a t ih =>
    simp only [List.cons_append, List.length_cons]
    have heq : t.length + 1 + k = (t.length + k) + 1 := by omega
    rw [heq, List.getD_cons_succ, ih]

theorem take_len_append (s u : List Nat) : (s ++ u).take s.length = s := by
  induction s with
  | nil => simp
  | cons a t ih => simp [ih]

theorem drop_len_append (s u : List Nat) (k : Nat) :
    (s ++ u).drop (s.length + k) = u.drop k := by
  induction s with
  | nil => simp
  | cons a t ih =>
    simp only [List.cons_append, List.length_cons]
    have heq : t.length + 1 + k = (t.length + k) + 1 := by omega
    rw [heq, List.drop_succ_cons, ih]

theorem find_crlf_ok (s rest : List Nat) (h : noCR s = true) :
    find_crlf (s ++ 13 :: 10 :: rest) = (.ok s, rest) := by
  unfold find_crlf
  rw [findIdx_cr s (10 :: rest) h]
  have hlen : (s ++ 13 :: 10 :: rest).length = s.length + 2 + rest.length := by
    simp; omega
  have h1 : ¬ s.length = (s ++ 13 :: 10 :: rest).length := by omega
  have h2 : ¬ s.length + 1 = (s ++ 13 :: 10 :: rest).length := by omega
  have h3 : (s ++ 13 :: 10 :: rest).getD (s.length + 1) 0 = 10 := by
    rw [getD_append_len]; rfl
  simp only [h1, h2, h3, if_false, ne_eq, not_true_eq_false]
  rw [take_len_append]
  have h4 : (s ++ 13 :: 10 :: rest).drop (s.length + 2) = rest := by
    rw [drop_len_append]
    rfl
  rw [h4]

theorem deserialize_simple_string_ok (s rest : List Nat)
    (hcr : noCR s = true) (hu : validUtf8 s = true) :
    deserialize_simple_string (s ++ 13 :: 10 :: rest) = (.ok s, rest) := by
  rw [deserialize_simple_string.eq_def, find_crlf_ok s rest hcr]
  simp only [hu, if_true]

theorem deserialize_simple_error_ok (s rest : List Nat)
    (hcr : noCR s = true) (hu : validUtf8 s = true) :
    deserialize_simple_error (s ++ 13 :: 10 :: rest) = (.ok s, rest) := by
  rw [deserialize_simple_error.eq_def, find_crlf_ok s rest hcr]
  simp only [hu, if_true]

theorem deserialize_integer_ok (n : Int) (rest : List Nat)
    (h1 : -(2 ^ 63) ≤ n) (h2 : n ≤ 2 ^ 63 - 1) :
    deserialize_integer (itoa n ++ 13 :: 10 :: rest) = (.ok n, rest) := by
  rw [deserialize_integer.eq_def, find_crlf_ok (itoa n) rest (noCR_itoa n)]
  simp only [validUtf8_itoa, if_true, parse_i64_itoa n h1 h2]

theorem deserialize_boolean_ok_t (rest : List Nat) :
    deserialize_boolean (116 :: 13 :: 10 :: rest) = (.ok true, rest) := by
  rw [deserialize_boolean.eq_def,
    show (116 :: 13 :: 10 :: rest) = [116] ++ 13 :: 10 :: rest from rfl,
    find_crlf_ok [116] rest (by decide)]
  simp

theorem deserialize_boolean_ok_f (rest : List Nat) :
    deserialize_boolean (102 :: 13 :: 10 :: rest) = (.ok false, rest) := by
  rw [deserialize_boolean.eq_def,
    show (102 :: 13 :: 10 :: rest) = [102] ++ 13 :: 10 :: rest from rfl,
    find_crlf_ok [102] rest (by decide)]
  simp

theorem deserialize_null_ok (rest : List Nat) :
    deserialize_null (13 :: 10 :: rest) = (.ok (), rest) := by
  rw [deserialize_null.eq_def]
  simp

theorem deserialize_bulk_string_ok (v rest : List Nat)
    (hu : validUtf8 v = true) (hlen : v.length ≤ 2 ^ 63 - 1) :
    deserialize_bulk_string (utoa v.length ++ 13 :: 10 :: (v ++ 13 :: 10 :: rest))
      = (.ok (v, false), rest) := by
  rw [deserialize_bulk_string.eq_def,
    find_crlf_ok (utoa v.length) (v ++ 13 :: 10 :: rest) (noCR_utoa _)]
  simp only [validUtf8_utoa, if_true, parse_i64_utoa v.length hlen]
  rw [if_neg (by omega), if_neg (by omega),
    if_neg (show ¬ (((v ++ 13 :: 10 :: rest).length : Int) < (v.length : Int) + 2) from by
      simp only [List.length_append, List.length_cons]
      push_cast
      omega)]
  have htake : (v ++ 13 :: 10 :: rest).take ((v.length : Int)).toNat = v := by
    rw [Int.toNat_natCast, take_len_append]
  have hdrop : (v ++ 13 :: 10 :: rest).drop ((v.length : Int)).toNat = 13 :: 10 :: rest := by
    rw [Int.toNat_natCast]
    exact drop_len_append v (13 :: 10 :: rest) 0
  rw [htake, hdrop]
  rw [if_neg (by simp)]
  simp only [hu, if_true, List.drop_succ_cons, List.drop_zero]

theorem deserialize_bulk_error_ok (v rest : List Nat)
    (hu : validUtf8 v = true) (hlen : v.length < 2 ^ 64) :
    deserialize_bulk_error (utoa v.length ++ 13 :: 10 :: (v ++ 13 :: 10 :: rest))
      = (.ok v, rest) := by
  rw [deserialize_bulk_error.eq_def,
    find_crlf_ok (utoa v.length) (v ++ 13 :: 10 :: rest) (noCR_utoa _)]
  simp only [validUtf8_utoa, if_true, parse_usize_utoa v.length hlen]
  rw [if_neg (show ¬ ((v ++ 13 :: 10 :: rest).length < v.length + 2) from by
      simp only [List.length_append, List.length_cons]
      omega)]
  have htake : (v ++ 13 :: 10 :: rest).take v.length = v := take_len_append _ _
  have hdrop : (v ++ 13 :: 10 :: rest).drop v.length = 13 :: 10 :: rest :=
    drop_len_append v (13 :: 10 :: rest) 0
  rw [htake, hdrop]
  rw [if_neg (by simp)]
  simp only [hu, if_true, List.drop_succ_cons, List.drop_zero]



theorem cmpNat_swap (a b : Nat) : cmpNat b a = (cmpNat a b).swap := by
  unfold cmpNat
  split_ifs <;> first | rfl | omega

theorem cmpInt_swap (a b : Int) : cmpInt b a = (cmpInt a b).swap := by
  unfold cmpInt
  split_ifs <;> first | rfl | omega

theorem cmpBool_swap (a b : Bool) : cmpBool b a = (cmpBool a b).swap := by
  cases a <;> cases b <;> rfl

theorem cmpBytes_swap (x y : List Nat) : cmpBytes y x = (cmpBytes x y).swap := by
  induction x generalizing y with
  | nil => cases y <;> rfl
  | cons a xs ih =>
    cases y with
    | nil => rfl
    | cons b ys =>
      show (match cmpNat b a with
            | .eq => cmpBytes ys xs
            | o => o) = (match cmpNat a b with
            | .eq => cmpBytes xs ys
            | o => o).swap
      rw [cmpNat_swap a b]
      rcases cmpNat a b with _ | _ | _
      · rfl
      · exact ih ys
      · rfl

theorem bulkFieldCmp_swap (x y : List Nat) (nx ny : Bool) :
    (match cmpBytes y x with
     | .eq => cmpBool ny nx
     | o => o) = (match cmpBytes x y with
     | .eq => cmpBool nx ny
     | o => o).swap := by
  rw [cmpBytes_swap x y]
  rcases cmpBytes x y with _ | _ | _
  · rfl
  · exact cmpBool_swap nx ny
  · rfl

theorem keyCmp_swap (a b : Key) : keyCmp b a = (keyCmp a b).swap := by
  cases a <;> cases b <;>
    first
      | rfl
      | exact cmpBytes_swap _ _
      | exact cmpInt_swap _ _
      | exact cmpBool_swap _ _
      | exact bulkFieldCmp_swap _ _ _ _

theorem keyCmp_gt_of_lt (a b : Key) (h : keyCmp a b = .lt) : keyCmp b a = .gt := by
  rw [keyCmp_swap, h]
  rfl

theorem mapInsert_append (k : Key) (v : Resp) :
    ∀ acc : List (Key × Resp), (∀ a ∈ acc, keyCmp k a.1 = .gt) →
      mapInsert acc k v = acc ++ [(k, v)] := by
  intro acc
  induction acc with
  | nil => intro _; rfl
  | cons a t ih =>
    intro h
    obtain ⟨k', v'⟩ := a
    have hk : keyCmp k k' = .gt := h (k', v') (by simp)
    simp only [mapInsert, hk]
    rw [ih (fun x hx => h x (by simp [hx]))]
    simp

theorem tryIntoKey_keyToResp (k : Key) : tryIntoKey (keyToResp k) = some k := by
  cases k <;> rfl

theorem serializeKey_eq (k : Key) : serializeKey k = Resp.serialize (keyToResp k) := by
  cases k <;> rfl

theorem wellFormedKey_toResp (k : Key) : wellFormed (keyToResp k) = wellFormedKey k := by
  cases k <;> rfl

theorem sizeOf_keyToResp (k : Key) : sizeOf (keyToResp k) = sizeOf k := by
  cases k <;> simp [keyToResp]

theorem wellFormedList_mem {l : List Resp} (h : wellFormedList l = true) :
    ∀ x ∈ l, wellFormed x = true := by
  induction l with
  | nil => intro x hx; cases hx
  | cons a t ih =>
    simp only [wellFormedList, Bool.and_eq_true] at h
    intro x hx
    rcases List.mem_cons.mp hx with h1 | h1
    · rw [h1]; exact h.1
    · exact ih h.2 x h1

theorem wellFormedPairs_mem {m : List (Key × Resp)} (h : wellFormedPairs m = true) :
    ∀ kv ∈ m, wellFormedKey kv.1 = true ∧ wellFormed kv.2 = true := by
  induction m with
  | nil => intro kv hkv; cases hkv
  | cons a t ih =>
    obtain ⟨k, v⟩ := a
    simp only [wellFormedPairs, Bool.and_eq_true] at h
    intro kv hkv
    rcases List.mem_cons.mp hkv with h1 | h1
    · rw [h1]; exact ⟨h.1.1, h.1.2⟩
    · exact ih h.2 kv h1

theorem serializeList_mem_le {l : List Resp} :
    ∀ x ∈ l, (Resp.serialize x).length ≤ (serializeList l).length := by
  induction l with
  | nil => intro x hx; cases hx
  | cons a t ih =>
    intro x hx
    simp only [serializeList, List.length_append]
    rcases List.mem_cons.mp hx with h1 | h1
    · rw [h1]; omega
    · have := ih x h1; omega

theorem serializePairs_mem_le {m : List (Key × Resp)} :
    ∀ kv ∈ m, (serializeKey kv.1).length ≤ (serializePairs m).length ∧
      (Resp.serialize kv.2).length ≤ (serializePairs m).length := by
  induction m with
  | nil => intro kv hkv; cases hkv
  | cons a t ih =>
    obtain ⟨k, v⟩ := a
    intro kv hkv
    simp only [serializePairs, List.length_append]
    rcases List.mem_cons.mp hkv with h1 | h1
    · rw [h1]
      dsimp only
      constructor <;> omega
    · have := ih kv h1
      constructor <;> omega

theorem loopParse_ok (p : List Nat → Except RespDeserializeError Resp × List Nat) :
    ∀ (l : List Resp) (rest : List Nat),
      (∀ x ∈ l, ∀ r, p (Resp.serialize x ++ r) = (.ok x, r)) →
      loopParse p l.length (serializeList l ++ rest) = (.ok l, rest) := by
  intro l
  induction l with
  | nil => intro rest _; rfl
  | cons x xs ih =>
    intro rest h
    have hx := h x (by simp) (serializeList xs ++ rest)
    simp only [serializeList, List.length_cons, List.append_assoc]
    simp only [loopParse, hx]
    rw [ih rest (fun y hy r => h y (by simp [hy]) r)]

theorem keysStrictSorted_cons {k : Key} {v : Resp} {m : List (Key × Resp)}
    (h : keysStrictSorted ((k, v) :: m) = true) :
    (∀ kv ∈ m, keyCmp k kv.1 = .lt) ∧ keysStrictSorted m = true := by
  simp only [keysStrictSorted, Bool.and_eq_true, List.all_eq_true] at h
  refine ⟨fun kv hkv => ?_, h.2⟩
  have h2 := h.1 kv hkv
  cases hc : keyCmp k kv.1 <;> rw [hc] at h2 <;>
    first | rfl | exact absurd h2 (by decide)

theorem mapLoop_ok (p : List Nat → Except RespDeserializeError Resp × List Nat) :
    ∀ (m acc : List (Key × Resp)) (rest : List Nat),
      (∀ kv ∈ m, ∀ r, p (serializeKey kv.1 ++ r) = (.ok (keyToResp kv.1), r)) →
      (∀ kv ∈ m, ∀ r, p (Resp.serialize kv.2 ++ r) = (.ok kv.2, r)) →
      (∀ kv ∈ m, ∀ a ∈ acc, keyCmp a.1 kv.1 = .lt) →
      keysStrictSorted m = true →
      mapLoop p m.length acc (serializePairs m ++ rest) = (.ok (acc ++ m), rest) := by
  intro m
  induction m with
  | nil => intro acc rest _ _ _ _; simp [mapLoop, serializePairs]
  | cons a m' ih =>
    obtain ⟨k, v⟩ := a
    intro acc rest hkey hval hacc hsort
    obtain ⟨hhead, hsort2⟩ := keysStrictSorted_cons hsort
    have hk := hkey (k, v) (by simp) (Resp.serialize v ++ (serializePairs m' ++ rest))
    have hv := hval (k, v) (by simp) (serializePairs m' ++ rest)
    simp only [serializePairs, List.length_cons, List.append_assoc]
    simp only [mapLoop, hk, tryIntoKey_keyToResp, hv]
    have hins : mapInsert acc k v = acc ++ [(k, v)] := by
      apply mapInsert_append
      intro x hx
      exact keyCmp_gt_of_lt x.1 k (hacc (k, v) (by simp) x hx)
    rw [hins]
    rw [ih (acc ++ [(k, v)]) rest
      (fun kv hkv r => hkey kv (by simp [hkv]) r)
      (fun kv hkv r => hval kv (by simp [hkv]) r)
      ?_ hsort2]
    · simp
    · intro kv hkv x hx
      rcases List.mem_append.mp hx with h1 | h1
      · exact hacc kv (by simp [hkv]) x h1
      · have hxkv : x = (k, v) := by simpa using h1
        rw [hxkv]
        exact hhead kv hkv

theorem tryFromF_step_simpleString (f : Nat) (t : List Nat) (h3 : ¬ (43 :: t).length < 3) :
    tryFromF (f + 1) (43 :: t) =
      (match deserialize_simple_string t with
       | (.ok s, rest) => (.ok (.simpleString s), rest)
       | (.error e, rest) => (.error e, rest)) := by
  rw [tryFromF.eq_3, if_neg h3]
  rw [if_pos rfl]

theorem tryFromF_step_simpleError (f : Nat) (t : List Nat) (h3 : ¬ (45 :: t).length < 3) :
    tryFromF (f + 1) (45 :: t) =
      (match deserialize_simple_error t with
       | (.ok s, rest) => (.ok (.simpleError s), rest)
       | (.error e, rest) => (.error e, rest)) := by
  rw [tryFromF.eq_3, if_neg h3]
  rw [if_neg (by decide)]
  rw [if_pos rfl]

theorem tryFromF_step_map (f : Nat) (t : List Nat) (h3 : ¬ (37 :: t).length < 3) :
    tryFromF (f + 1) (37 :: t) =
      (match find_crlf t with
       | (.error e, rest) => (.error e, rest)
       | (.ok line, rest) =>
         if validUtf8 line then
           match parse_usize line with
           | none => (.error .wrongFormat, rest)
           | some len =>
             match mapLoop (tryFromF f) len [] rest with
             | (.ok m, rest2) => (.ok (.map m), rest2)
             | (.error e, rest2) => (.error e, rest2)
         else (.error .utf8Error, rest)) := by
  rw [tryFromF.eq_3, if_neg h3]
  rw [if_neg (by decide)]
  rw [if_neg (by decide)]
  rw [if_pos rfl]

theorem tryFromF_step_integer (f : Nat) (t : List Nat) (h3 : ¬ (58 :: t).length < 3) :
    tryFromF (f + 1) (58 :: t) =
      (match deserialize_integer t with
       | (.ok n, rest) => (.ok (.integer n), rest)
       | (.error e, rest) => (.error e, rest)) := by
  rw [tryFromF.eq_3, if_neg h3]
  rw [if_neg (by decide)]
  rw [if_neg (by decide)]
  rw [if_neg (by decide)]
  rw [if_pos rfl]

theorem tryFromF_step_bulkString (f : Nat) (t : List Nat) (h3 : ¬ (36 :: t).length < 3) :
    tryFromF (f + 1) (36 :: t) =
      (match deserialize_bulk_string t with
       | (.ok (v, n), rest) => (.ok (.bulkString v n), rest)
       | (.error e, rest) => (.error e, rest)) := by
  rw [tryFromF.eq_3, if_neg h3]
  rw [if_neg (by decide)]
  rw [if_neg (by decide)]
  rw [if_neg (by decide)]
  rw [if_neg (by decide)]
  rw [if_pos rfl]

theorem tryFromF_step_null (f : Nat) (t : List Nat) (h3 : ¬ (95 :: t).length < 3) :
    tryFromF (f + 1) (95 :: t) =
      (match deserialize_null t with
       | (.ok _, rest) => (.ok .null, rest)
       | (.error e, rest) => (.error e, rest)) := by
  rw [tryFromF.eq_3, if_neg h3]
  rw [if_neg (by decide)]
  rw [if_neg (by decide)]
  rw [if_neg (by decide)]
  rw [if_neg (by decide)]
  rw [if_neg (by decide)]
  rw [if_pos rfl]

theorem tryFromF_step_boolean (f : Nat) (t : List Nat) (h3 : ¬ (35 :: t).length < 3) :
    tryFromF (f + 1) (35 :: t) =
      (match deserialize_boolean t with
       | (.ok b, rest) => (.ok (.boolean b), rest)
       | (.error e, rest) => (.error e, rest)) := by
  rw [tryFromF.eq_3, if_neg h3]
  rw [if_neg (by decide)]
  rw [if_neg (by decide)]
  rw [if_neg (by decide)]
  rw [if_neg (by decide)]
  rw [if_neg (by decide)]
  rw [if_neg (by decide)]
  rw [if_pos rfl]

theorem tryFromF_step_double (f : Nat) (t : List Nat) (h3 : ¬ (44 :: t).length < 3) :
    tryFromF (f + 1) (44 :: t) =
      (match deserialize_double t with
       | (.ok d, rest) => (.ok (.double d), rest)
       | (.error e, rest) => (.error e, rest)) := by
  rw [tryFromF.eq_3, if_neg h3]
  rw [if_neg (by decide)]
  rw [if_neg (by decide)]
  rw [if_neg (by decide)]
  rw [if_neg (by decide)]
  rw [if_neg (by decide)]
  rw [if_neg (by decide)]
  rw [if_neg (by decide)]
  rw [if_pos rfl]

theorem tryFromF_step_bulkError (f : Nat) (t : List Nat) (h3 : ¬ (33 :: t).length < 3) :
    tryFromF (f + 1) (33 :: t) =
      (match deserialize_bulk_error t with
       | (.ok v, rest) => (.ok (.bulkError v), rest)
       | (.error e, rest) => (.error e, rest)) := by
  rw [tryFromF.eq_3, if_neg h3]
  rw [if_neg (by decide)]
  rw [if_neg (by decide)]
  rw [if_neg (by decide)]
  rw [if_neg (by decide)]
  rw [if_neg (by decide)]
  rw [if_neg (by decide)]
  rw [if_neg (by decide)]
  rw [if_neg (by decide)]
  rw [if_pos rfl]

theorem tryFromF_step_array (f : Nat) (t : List Nat) (h3 : ¬ (42 :: t).length < 3) :
    tryFromF (f + 1) (42 :: t) =
      (match find_crlf t with
       | (.error e, rest) => (.error e, rest)
       | (.ok line, rest) =>
         if validUtf8 line then
           match parse_i64 line with
           | none => (.error .wrongFormat, rest)
           | some len =>
             if len = -1 then (.ok (.array [] true), rest)
             else if len < 0 then (.error .wrongFormat, rest)
             else
               match loopParse (tryFromF f) len.toNat rest with
               | (.ok l, rest2) => (.ok (.array l false), rest2)
               | (.error e, rest2) => (.error e, rest2)
         else (.error .utf8Error, rest)) := by
  rw [tryFromF.eq_3, if_neg h3]
  rw [if_neg (by decide)]
  rw [if_neg (by decide)]
  rw [if_neg (by decide)]
  rw [if_neg (by decide)]
  rw [if_neg (by decide)]
  rw [if_neg (by decide)]
  rw [if_neg (by decide)]
  rw [if_neg (by decide)]
  rw [if_neg (by decide)]
  rw [if_pos rfl]

theorem tryFromF_step_set (f : Nat) (t : List Nat) (h3 : ¬ (126 :: t).length < 3) :
    tryFromF (f + 1) (126 :: t) =
      (match find_crlf t with
       | (.error e, rest) => (.error e, rest)
       | (.ok line, rest) =>
         if validUtf8 line then
           match parse_usize line with
           | none => (.error .wrongFormat, rest)
           | some len =>
             match setLoop (tryFromF f) len [] rest with
             | (.ok s, rest2) => (.ok (.set s), rest2)
             | (.error e, rest2) => (.error e, rest2)
         else (.error .utf8Error, rest)) := by
  rw [tryFromF.eq_3, if_neg h3]
  rw [if_neg (by decide)]
  rw [if_neg (by decide)]
  rw [if_neg (by decide)]
  rw [if_neg (by decide)]
  rw [if_neg (by decide)]
  rw [if_neg (by decide)]
  rw [if_neg (by decide)]
  rw [if_neg (by decide)]
  rw [if_neg (by decide)]
  rw [if_neg (by decide)]
  rw [if_pos rfl]

theorem tryFromF_serialize :
    ∀ (N : Nat) (v : Resp), sizeOf v ≤ N → wellFormed v = true →
      ∀ (fuel : Nat) (rest : List Nat), (Resp.serialize v).length ≤ fuel →
        tryFromF fuel (Resp.serialize v ++ rest) = (.ok v, rest) := by
  intro N
  induction N with
  | zero =>
    intro v hsz
    exfalso
    have h1 : 1 ≤ sizeOf v := by cases v <;> simp
    omega
  | succ N ih =>
    intro v hsz hwf fuel rest hfuel
    cases v with
    | simpleString s =>
      simp only [wellFormed, Bool.and_eq_true] at hwf
      have hlen : (Resp.serialize (Resp.simpleString s)).length = s.length + 3 := by
        simp [Resp.serialize, serializeSimpleString]
      obtain ⟨f, rfl⟩ : ∃ f, fuel = f + 1 := ⟨fuel - 1, by omega⟩
      have hbuf : Resp.serialize (Resp.simpleString s) ++ rest
          = 43 :: (s ++ 13 :: 10 :: rest) := by
        simp [Resp.serialize, serializeSimpleString]
      rw [hbuf, tryFromF_step_simpleString f _
          (by simp only [List.length_cons, List.length_append]; omega),
        deserialize_simple_string_ok s rest hwf.1 hwf.2]
    | simpleError s =>
      simp only [wellFormed, Bool.and_eq_true] at hwf
      have hlen : (Resp.serialize (Resp.simpleError s)).length = s.length + 3 := by
        simp [Resp.serialize, serializeSimpleError]
      obtain ⟨f, rfl⟩ : ∃ f, fuel = f + 1 := ⟨fuel - 1, by omega⟩
      have hbuf : Resp.serialize (Resp.simpleError s) ++ rest
          = 45 :: (s ++ 13 :: 10 :: rest) := by
        simp [Resp.serialize, serializeSimpleError]
      rw [hbuf, tryFromF_step_simpleError f _
          (by simp only [List.length_cons, List.length_append]; omega),
        deserialize_simple_error_ok s rest hwf.1 hwf.2]
    | integer n =>
      simp only [wellFormed, Bool.and_eq_true, decide_eq_true_eq] at hwf
      have hlen : (Resp.serialize (Resp.integer n)).length = (itoa n).length + 3 := by
        simp [Resp.serialize, serializeInteger]
      obtain ⟨f, rfl⟩ : ∃ f, fuel = f + 1 := ⟨fuel - 1, by omega⟩
      have hbuf : Resp.serialize (Resp.integer n) ++ rest
          = 58 :: (itoa n ++ 13 :: 10 :: rest) := by
        simp [Resp.serialize, serializeInteger]
      rw [hbuf, tryFromF_step_integer f _
          (by simp only [List.length_cons, List.length_append]; omega),
        deserialize_integer_ok n rest hwf.1 hwf.2]
    | bulkString v n =>
      simp only [wellFormed, Bool.and_eq_true, Bool.not_eq_true', decide_eq_true_eq] at hwf
      obtain ⟨⟨hn, hu⟩, hl⟩ := hwf
      subst hn
      have hlen : (Resp.serialize (Resp.bulkString v false)).length
          = (utoa v.length).length + v.length + 5 := by
        simp [Resp.serialize, serializeBulkString]
        omega
      obtain ⟨f, rfl⟩ : ∃ f, fuel = f + 1 := ⟨fuel - 1, by omega⟩
      have hbuf : Resp.serialize (Resp.bulkString v false) ++ rest
          = 36 :: (utoa v.length ++ 13 :: 10 :: (v ++ 13 :: 10 :: rest)) := by
        simp [Resp.serialize, serializeBulkString]
      rw [hbuf, tryFromF_step_bulkString f _
          (by simp only [List.length_cons, List.length_append]; omega),
        deserialize_bulk_string_ok v rest hu (by omega)]
    | null =>
      obtain ⟨f, rfl⟩ : ∃ f, fuel = f + 1 := ⟨fuel - 1, by
        simp [Resp.serialize, serializeNull] at hfuel
        omega⟩
      have hbuf : Resp.serialize Resp.null ++ rest = 95 :: (13 :: 10 :: rest) := by
        simp [Resp.serialize, serializeNull]
      rw [hbuf, tryFromF_step_null f _
          (by simp only [List.length_cons]; omega),
        deserialize_null_ok rest]
    | boolean b =>
      obtain ⟨f, rfl⟩ : ∃ f, fuel = f + 1 := ⟨fuel - 1, by
        cases b <;> simp [Resp.serialize, serializeBoolean] at hfuel <;> omega⟩
      cases b
      · have hbuf : Resp.serialize (Resp.boolean false) ++ rest
            = 35 :: (102 :: 13 :: 10 :: rest) := by
          simp [Resp.serialize, serializeBoolean]
        rw [hbuf, tryFromF_step_boolean f _
            (by simp only [List.length_cons]; omega),
          deserialize_boolean_ok_f rest]
      · have hbuf : Resp.serialize (Resp.boolean true) ++ rest
            = 35 :: (116 :: 13 :: 10 :: rest) := by
          simp [Resp.serialize, serializeBoolean]
        rw [hbuf, tryFromF_step_boolean f _
            (by simp only [List.length_cons]; omega),
          deserialize_boolean_ok_t rest]
    | double d =>
      simp [wellFormed] at hwf
    | bulkError v =>
      simp only [wellFormed, Bool.and_eq_true, decide_eq_true_eq] at hwf
      obtain ⟨hu, hl⟩ := hwf
      have hlen : (Resp.serialize (Resp.bulkError v)).length
          = (utoa v.length).length + v.length + 5 := by
        simp [Resp.serialize, serializeBulkError]
        omega
      obtain ⟨f, rfl⟩ : ∃ f, fuel = f + 1 := ⟨fuel - 1, by omega⟩
      have hbuf : Resp.serialize (Resp.bulkError v) ++ rest
          = 33 :: (utoa v.length ++ 13 :: 10 :: (v ++ 13 :: 10 :: rest)) := by
        simp [Resp.serialize, serializeBulkError]
      rw [hbuf, tryFromF_step_bulkError f _
          (by simp only [List.length_cons, List.length_append]; omega),
        deserialize_bulk_error_ok v rest hu hl]
    | array l n =>
      simp only [wellFormed, Bool.and_eq_true, Bool.not_eq_true', decide_eq_true_eq] at hwf
      obtain ⟨⟨hn, hcount⟩, hwl⟩ := hwf
      subst hn
      have hu1 : 1 ≤ (utoa l.length).length := List.length_pos.mpr (utoa_ne_nil _)
      have hfl : (serializeList l).length + 4 ≤ fuel := by
        simp only [Resp.serialize, List.length_cons, List.length_append] at hfuel
        omega
      obtain ⟨f, rfl⟩ : ∃ f, fuel = f + 1 := ⟨fuel - 1, by omega⟩
      have hszl : sizeOf l ≤ N := by
        simp only [Resp.array.sizeOf_spec] at hsz
        omega
      have helem : ∀ x ∈ l, ∀ r, tryFromF f (Resp.serialize x ++ r) = (.ok x, r) := by
        intro x hx r
        have h5 : sizeOf x < sizeOf l := List.sizeOf_lt_of_mem hx
        have h6 := serializeList_mem_le x hx
        exact ih x (by omega) (wellFormedList_mem hwl x hx) f r (by omega)
      have hbuf : Resp.serialize (Resp.array l false) ++ rest
          = 42 :: (utoa l.length ++ 13 :: 10 :: (serializeList l ++ rest)) := by
        simp [Resp.serialize]
      rw [hbuf, tryFromF_step_array f _
          (by simp only [List.length_cons, List.length_append]; omega),
        find_crlf_ok (utoa l.length) _ (noCR_utoa _)]
      simp only [validUtf8_utoa, if_true, parse_i64_utoa l.length hcount]
      rw [if_neg (by omega), if_neg (by omega)]
      simp only [Int.toNat_natCast]
      rw [loopParse_ok (tryFromF f) l rest helem]
    | map m =>
      simp only [wellFormed, Bool.and_eq_true, decide_eq_true_eq] at hwf
      obtain ⟨⟨hcount, hsort⟩, hwp⟩ := hwf
      have hu1 : 1 ≤ (utoa m.length).length := List.length_pos.mpr (utoa_ne_nil _)
      have hfl : (serializePairs m).length + 4 ≤ fuel := by
        simp only [Resp.serialize, List.length_cons, List.length_append] at hfuel
        omega
      obtain ⟨f, rfl⟩ : ∃ f, fuel = f + 1 := ⟨fuel - 1, by omega⟩
      have hszm : sizeOf m ≤ N := by
        simp only [Resp.map.sizeOf_spec] at hsz
        omega
      have hkey : ∀ kv ∈ m, ∀ r,
          tryFromF f (serializeKey kv.1 ++ r) = (.ok (keyToResp kv.1), r) := by
        intro kv hkv r
        obtain ⟨k0, v0⟩ := kv
        dsimp only
        have h5 : sizeOf ((k0, v0) : Key × Resp) < sizeOf m := List.sizeOf_lt_of_mem hkv
        have h6 : sizeOf ((k0, v0) : Key × Resp) = 1 + sizeOf k0 + sizeOf v0 := by simp
        have h7 := (serializePairs_mem_le (k0, v0) hkv).1
        rw [serializeKey_eq]
        refine ih (keyToResp k0) ?_ ?_ f r ?_
        · rw [sizeOf_keyToResp]
          omega
        · rw [wellFormedKey_toResp]
          exact ((wellFormedPairs_mem hwp) (k0, v0) hkv).1
        · rw [← serializeKey_eq]
          dsimp only at h7
          omega
      have hval : ∀ kv ∈ m, ∀ r,
          tryFromF f (Resp.serialize kv.2 ++ r) = (.ok kv.2, r) := by
        intro kv hkv r
        obtain ⟨k0, v0⟩ := kv
        dsimp only
        have h5 : sizeOf ((k0, v0) : Key × Resp) < sizeOf m := List.sizeOf_lt_of_mem hkv
        have h6 : sizeOf ((k0, v0) : Key × Resp) = 1 + sizeOf k0 + sizeOf v0 := by simp
        have h7 := (serializePairs_mem_le (k0, v0) hkv).2
        dsimp only at h7
        refine ih v0 (by omega) (((wellFormedPairs_mem hwp) (k0, v0) hkv).2) f r (by omega)
      have hml := mapLoop_ok (tryFromF f) m [] rest hkey hval
        (by intro kv hkv a ha; cases ha) hsort
      rw [List.nil_append] at hml
      have hbuf : Resp.serialize (Resp.map m) ++ rest
          = 37 :: (utoa m.length ++ 13 :: 10 :: (serializePairs m ++ rest)) := by
        simp [Resp.serialize]
      rw [hbuf, tryFromF_step_map f _
          (by simp only [List.length_cons, List.length_append]; omega),
        find_crlf_ok (utoa m.length) _ (noCR_utoa _)]
      simp only [validUtf8_utoa, if_true, parse_usize_utoa m.length hcount]
      rw [hml]
    | set s =>
      simp [wellFormed] at hwf

/-- Decoding the serialization of a well-formed value, with the always
sufficient fuel, recovers the value and consumes exactly its bytes. -/
theorem tryFrom_roundtrip_aux (v : Resp) (h : wellFormed v = true) (extra : List Nat) :
    tryFromBuf (Resp.serialize v ++ extra) = (.ok v, extra) := by
  unfold tryFromBuf
  exact tryFromF_serialize (sizeOf v) v le_rfl h (Resp.serialize v ++ extra).length extra
    (by simp)

/-- Claim C1 (amended): for every constructible `Resp` with no `Set` and no
`Double` component, no null-state `BulkString`/`Array`, CR-free
simple-string/simple-error text, and representable sizes — the
`wellFormed` predicate — decoding the encoder's output yields the value
back with an empty buffer. -/
theorem c1_roundtrip_wellFormed (v : Resp) (h : wellFormed v = true) :
    Resp.tryFrom (Resp.serialize v) = (.ok v, []) := by
  have h2 := tryFrom_roundtrip_aux v h []
  rw [List.append_nil] at h2
  unfold Resp.tryFrom
  rw [h2]
  rfl

/-- Claim C1, as stated, is false: `SimpleString "\r"` is a constructible
value without a Set component, but its encoding `+\r\r\n` re-parses as
`WrongFormat` (the decoder finds the CR of the payload first), so
`decode(encode(v)) ≠ v`. -/
theorem c1_counterexample :
    Resp.tryFrom (Resp.serialize (Resp.simpleString [13]))
        = (.error .wrongFormat, [13, 13, 10]) ∧
      (Resp.tryFrom (Resp.serialize (Resp.simpleString [13]))).1
        ≠ .ok (Resp.simpleString [13]) := by
  refine ⟨rfl, ?_⟩
  intro h
  rw [show (Resp.tryFrom (Resp.serialize (Resp.simpleString [13]))).1
      = Except.error RespDeserializeError.wrongFormat from rfl] at h
  exact Except.noConfusion h

/-- Witness for C1's amended round-trip at a concrete composite value. -/
theorem c1_roundtrip_witness :
    wellFormed (Resp.array [Resp.bulkString (strBytes ("foo")) false,
        Resp.map [(Key.integer 1, Resp.null), (Key.boolean true, Resp.boolean false)],
        Resp.integer (-42)] false) = true ∧
      Resp.tryFrom (Resp.serialize (Resp.array [Resp.bulkString (strBytes ("foo")) false,
        Resp.map [(Key.integer 1, Resp.null), (Key.boolean true, Resp.boolean false)],
        Resp.integer (-42)] false))
        = (.ok (Resp.array [Resp.bulkString (strBytes ("foo")) false,
            Resp.map [(Key.integer 1, Resp.null), (Key.boolean true, Resp.boolean false)],
            Resp.integer (-42)] false), []) :=
  ⟨rfl, c1_roundtrip_wellFormed _ rfl⟩

/-- Claim C2: the code consumes buffer bytes before reporting Incomplete.
Feeding the strict prefix `$6\r\nfoo` of a valid bulk string returns
`NotComplete` but leaves the buffer as `foo` (the `$6\r\n` header was
consumed), so appending the remaining bytes `bar\r\n` and retrying parses
the mangled buffer `foobar\r\n` and fails with `UnknownRespType` instead of
producing `BulkString "foobar"`. -/
theorem c2_incomplete_consumes_buffer :
    (Resp.tryFrom (strBytes ("$6\r\nfoo"))).1 = .error .notComplete ∧
      (Resp.tryFrom (strBytes ("$6\r\nfoo"))).2 = strBytes ("foo") ∧
      strBytes ("foo") ≠ strBytes ("$6\r\nfoo") ∧
      (Resp.tryFrom (strBytes ("foo") ++ strBytes ("bar\r\n"))).1
        = .error .unknownRespType := by
  refine ⟨rfl, rfl, ?_, rfl⟩
  decide

/-- Claim C3 (amended): GET and ECHO require exactly one argument and SET
exactly two, a mismatch failing with `WrongNumberOfArguments (expected,
actual)`; COMMAND, however, performs no arity check and accepts any number
of arguments. -/
theorem c3_arity (args : List Resp) (b : Bool) :
    (args.length ≠ 1 →
      Command.tryFrom (Resp.array (Resp.bulkString (strBytes ("GET")) false :: args) b)
        = .error (.wrongNumberOfArguments 1 args.length)) ∧
    (args.length ≠ 1 →
      Command.tryFrom (Resp.array (Resp.bulkString (strBytes ("ECHO")) false :: args) b)
        = .error (.wrongNumberOfArguments 1 args.length)) ∧
    (args.length ≠ 2 →
      Command.tryFrom (Resp.array (Resp.bulkString (strBytes ("SET")) false :: args) b)
        = .error (.wrongNumberOfArguments 2 args.length)) ∧
    Command.tryFrom (Resp.array (Resp.bulkString (strBytes ("COMMAND")) false :: args) b)
      = .ok .cmd := by
  refine ⟨?_, ?_, ?_, rfl⟩
  · intro h
    match args with
    | [] => rfl
    | [a] => exact absurd rfl h
    | a :: a2 :: t => rfl
  · intro h
    match args with
    | [] => rfl
    | [a] => exact absurd rfl h
    | a :: a2 :: t => rfl
  · intro h
    match args with
    | [] => rfl
    | [a] => rfl
    | [a, a2] => exact absurd rfl h
    | a :: a2 :: a3 :: t => rfl

/-- Claim C3, as stated, is false for COMMAND: `COMMAND x` (one argument)
converts successfully to `Cmd` instead of failing with
`WrongNumberOfArguments (0, 1)` — the source performs no arity check on
COMMAND. -/
theorem c3_counterexample :
    Command.tryFrom (Resp.array [Resp.bulkString (strBytes ("COMMAND")) false,
        Resp.bulkString (strBytes ("x")) false] false) = .ok .cmd ∧
      Command.tryFrom (Resp.array [Resp.bulkString (strBytes ("COMMAND")) false,
        Resp.bulkString (strBytes ("x")) false] false)
        ≠ .error (.wrongNumberOfArguments 0 1) := by
  refine ⟨rfl, ?_⟩
  intro h
  rw [show Command.tryFrom (Resp.array [Resp.bulkString (strBytes ("COMMAND")) false,
      Resp.bulkString (strBytes ("x")) false] false) = Except.ok Command.cmd from rfl] at h
  exact Except.noConfusion h

/-- Witness for C3's amended arity checks: the spec's two examples,
`SET k` failing with (2, 1) and `GET k extra` failing with (1, 2). -/
theorem c3_arity_witness :
    Command.tryFrom (Resp.array [Resp.bulkString (strBytes ("SET")) false,
        Resp.bulkString (strBytes ("k")) false] false)
      = .error (.wrongNumberOfArguments 2 1) ∧
    Command.tryFrom (Resp.array [Resp.bulkString (strBytes ("GET")) false,
        Resp.bulkString (strBytes ("k")) false,
        Resp.bulkString (strBytes ("extra")) false] false)
      = .error (.wrongNumberOfArguments 1 2) :=
  ⟨(c3_arity [Resp.bulkString (strBytes ("k")) false] false).2.2.1 (by decide),
   (c3_arity [Resp.bulkString (strBytes ("k")) false,
      Resp.bulkString (strBytes ("extra")) false] false).1 (by decide)⟩

/-- Claim C4: the null `BulkString` (wire `$-1`) is a distinct value from
the empty one, and likewise for `Array`, but the serializer ignores the
`is_null` flag, so both encode to the empty form and the null state does
not survive an encode/decode round trip. -/
theorem c4_null_not_roundtripped :
    Resp.bulkString [] true ≠ Resp.bulkString [] false ∧
      Resp.serialize (Resp.bulkString [] true) = Resp.serialize (Resp.bulkString [] false) ∧
      Resp.tryFrom (Resp.serialize (Resp.bulkString [] true))
        = (.ok (Resp.bulkString [] false), []) ∧
      Resp.array [] true ≠ Resp.array [] false ∧
      Resp.serialize (Resp.array [] true) = Resp.serialize (Resp.array [] false) ∧
      Resp.tryFrom (Resp.serialize (Resp.array [] true)) = (.ok (Resp.array [] false), []) := by
  refine ⟨?_, rfl, rfl, ?_, rfl, rfl⟩ <;> simp

/-- Claim C5: the struct-level `Set` serializer produces
`~{count}\r\n` followed by the elements in canonical order (the decoder's
grammar accepts exactly that back), but the `Resp`-level dispatch has the
`Set` arm commented out and falls into the `_ => Vec::new()` catch-all, so
encoding a `Set` *value* yields the empty byte string. -/
theorem c5_set_serialize_dispatch :
    Resp.serialize (Resp.set [Key.simpleString (strBytes ("value1")), Key.boolean false])
      = [] ∧
    setSerialize [Key.simpleString (strBytes ("value1")), Key.boolean false]
      = strBytes ("~2\r\n+value1\r\n#f\r\n") ∧
    Resp.tryFrom (setSerialize [Key.simpleString (strBytes ("value1")), Key.boolean false])
      = (.ok (Resp.set [Key.simpleString (strBytes ("value1")), Key.boolean false]), []) :=
  ⟨rfl, rfl, rfl⟩

/-- Claim C6: `Get` replies with the stored value on a hit and `Null` on a
miss; `Set` upserts and always replies `SimpleString "OK"`; a `Get`
following a `Set` of the same key returns exactly the written value. -/
theorem c6_get_set_execute (st : Storage) (k : Key) (v w : Resp) :
    (Storage.get st k = some w → Command.execute (.get k) st = (w, st)) ∧
    (Storage.get st k = none → Command.execute (.get k) st = (Resp.null, st)) ∧
    Command.execute (.set k v) st
      = (Resp.simpleString (strBytes ("OK")), Storage.set st k v) ∧
    (Command.execute (.get k) ((Command.execute (.set k v) st).2)).1 = v := by
  refine ⟨?_, ?_, rfl, ?_⟩
  · intro h
    simp only [Storage.get] at h
    simp [Command.execute, Storage.execute, Storage.get, h]
  · intro h
    simp only [Storage.get] at h
    simp [Command.execute, Storage.execute, Storage.get, h]
  · simp [Command.execute, Storage.execute, Storage.get, Storage.set]

/-- Witness for C6 at a concrete store: a miss replies Null, and a Get
after a Set returns the written value. -/
theorem c6_get_set_witness :
    Command.execute (Command.get Key.null) (fun _ => none) = (Resp.null, fun _ => none) ∧
    (Command.execute (Command.get Key.null)
        ((Command.execute (Command.set Key.null (Resp.integer 7)) (fun _ => none)).2)).1
      = Resp.integer 7 :=
  ⟨(c6_get_set_execute (fun _ => none) Key.null (Resp.integer 7) Resp.null).2.1 rfl,
   (c6_get_set_execute (fun _ => none) Key.null (Resp.integer 7) Resp.null).2.2.2⟩

/-- Claim C7: conversion to `Key` succeeds exactly on SimpleString,
SimpleError, Integer, BulkString, BulkError, Null and Boolean, and fails on
Array, Double, Map and Set; consequently a GET with an Array key or a SET
with a Map key fails with `UnsupportedKey`. -/
theorem c7_key_restriction :
    (∀ s, tryIntoKey (Resp.simpleString s) = some (Key.simpleString s)) ∧
    (∀ s, tryIntoKey (Resp.simpleError s) = some (Key.simpleError s)) ∧
    (∀ n, tryIntoKey (Resp.integer n) = some (Key.integer n)) ∧
    (∀ v b, tryIntoKey (Resp.bulkString v b) = some (Key.bulkString v b)) ∧
    (∀ v, tryIntoKey (Resp.bulkError v) = some (Key.bulkError v)) ∧
    tryIntoKey Resp.null = some Key.null ∧
    (∀ b, tryIntoKey (Resp.boolean b) = some (Key.boolean b)) ∧
    (∀ l b, tryIntoKey (Resp.array l b) = none) ∧
    (∀ d, tryIntoKey (Resp.double d) = none) ∧
    (∀ m, tryIntoKey (Resp.map m) = none) ∧
    (∀ s, tryIntoKey (Resp.set s) = none) ∧
    (∀ l b bb, Command.tryFrom (Resp.array [Resp.bulkString (strBytes ("GET")) false,
        Resp.array l b] bb) = .error .unsupportedKey) ∧
    (∀ m v bb, Command.tryFrom (Resp.array [Resp.bulkString (strBytes ("SET")) false,
        Resp.map m, v] bb) = .error .unsupportedKey) :=
  ⟨fun _ => rfl, fun _ => rfl, fun _ => rfl, fun _ _ => rfl, fun _ => rfl, rfl,
   fun _ => rfl, fun _ _ => rfl, fun _ => rfl, fun _ => rfl, fun _ => rfl,
   fun _ _ _ => rfl, fun _ _ _ => rfl⟩

/-- Claim C9: after one complete top-level value is parsed, any leftover
bytes make the parse call fail with `WrongFormat` instead of succeeding or
starting a second message. -/
theorem c9_trailing_bytes_rejected (v : Resp) (extra : List Nat)
    (h1 : wellFormed v = true) (h2 : extra ≠ []) :
    (Resp.tryFrom (Resp.serialize v ++ extra)).1 = .error .wrongFormat := by
  have h3 := tryFrom_roundtrip_aux v h1 extra
  unfold Resp.tryFrom
  rw [h3]
  have he : extra.isEmpty = false := by
    cases extra with
    | nil => exact absurd rfl h2
    | cons a t => rfl
  simp [he]

/-- Witness for C9: a Null value followed by one stray byte. -/
theorem c9_trailing_bytes_witness :
    wellFormed Resp.null = true ∧ ([43] : List Nat) ≠ [] ∧
      (Resp.tryFrom (Resp.serialize Resp.null ++ [43])).1 = .error .wrongFormat :=
  ⟨rfl, by decide, c9_trailing_bytes_rejected Resp.null [43] rfl (by decide)⟩

/-- Claim C10: executing Get, Echo or Cmd leaves the storage untouched, and
Set changes at most the entry of its own key. -/
theorem c10_storage_frame (st : Storage) (k k2 : Key) (v m : Resp) :
    (Command.execute (.get k) st).2 = st ∧
    (Command.execute (.echo m) st).2 = st ∧
    (Command.execute .cmd st).2 = st ∧
    (k2 ≠ k → ((Command.execute (.set k v) st).2) k2 = st k2) := by
  refine ⟨rfl, rfl, rfl, ?_⟩
  intro h
  simp [Command.execute, Storage.execute, Storage.set, h]

/-- Witness for C10: a Set under one key leaves a different key's entry
unchanged. -/
theorem c10_storage_frame_witness :
    ((Command.execute (Command.set Key.null (Resp.integer 3)) (fun _ => none)).2)
        (Key.boolean true)
      = (fun _ => none : Storage) (Key.boolean true) :=
  (c10_storage_frame (fun _ => none) Key.null (Key.boolean true) (Resp.integer 3)
    Resp.null).2.2.2 (by decide)

end Redis
